import Mathlib

/-!
Shallow embedding of the car CRUD repository (`src/model/car.py`,
`src/model/repository/car_repository.py`).

The backing store is modelled as the list of persisted rows together with the
next auto-increment identifier.  Each repository operation is a pure function
of the store; operations that write return the new store on success, and on
any raised error (`ValueError` for validation, `abort(404)` for not-found) no
commit happens, so the store is unchanged — this mirrors the request-scoped
session being rolled back when the exception propagates.

Python `str` is `String`, Python `int` is `Int`, and the `float` price is
modelled as `Rat` (the price is only ever stored and compared, never
subjected to rounding arithmetic, so exact rationals are faithful here).
The dynamic `isinstance` checks in `_validate_year` / `_validate_price`
always pass in this typed embedding.
-/

/-- A persisted car row (`class Car` in `src/model/car.py`): id plus the five
payload fields.  SQLite does not enforce the declared VARCHAR lengths, so no
length restriction appears here. -/
structure Car where
  id : Nat
  make : String
  model : String
  year : Int
  color : String
  price : Rat
deriving Repr, DecidableEq

/-- The string returned by the `Car.full_name` property: year, make and model
separated by single spaces. -/
def Car.full_name (c : Car) : String :=
  toString c.year ++ " " ++ c.make ++ " " ++ c.model

/-- The backing store: the persisted rows in insertion order, and the next
primary key the store will assign. -/
structure Store where
  rows : List Car
  nextId : Nat
deriving Repr, DecidableEq

/-- The store as created by `db.create_all()` on a fresh database: no rows,
and the auto-increment counter will hand out 1 first. -/
def Store.empty : Store := ⟨[], 1⟩

/-- `db.session.get(Car, car_id)`: look the row up by primary key. -/
def Store.getById (s : Store) (car_id : Nat) : Option Car :=
  s.rows.find? fun r => r.id == car_id

/-- The two ways a repository call can fail: `abort(404)` and
`raise ValueError(msg)`. -/
inductive RepoError where
  | notFound
  | validation (msg : String)
deriving Repr, DecidableEq

instance {ε α : Type} [DecidableEq ε] [DecidableEq α] :
    DecidableEq (Except ε α) := fun a b => by
  cases a <;> cases b
  case error.error e1 e2 =>
    exact if h : e1 = e2 then .isTrue (by rw [h]) else .isFalse (by simp [h])
  case error.ok => exact .isFalse (by simp)
  case ok.error => exact .isFalse (by simp)
  case ok.ok a1 a2 =>
    exact if h : a1 = a2 then .isTrue (by rw [h]) else .isFalse (by simp [h])

/-- The store the caller observes after an operation: the committed store on
success, the unchanged store when the operation raised. -/
def postStore {α : Type} (s : Store) (r : Except RepoError (α × Store)) : Store :=
  match r with
  | .ok (_, s2) => s2
  | .error _ => s

/-- The set of characters Python's `str.strip()` removes (ASCII whitespace;
the repository only ever receives form text). -/
def pyWhitespace (c : Char) : Bool :=
  c == ' ' || c == '\t' || c == '\n' || c == '\r' || c == '\x0b' || c == '\x0c'

/-- `not v or not v.strip()`: the value is empty or consists only of
whitespace, i.e. every character is whitespace. -/
def pyBlank (s : String) : Bool :=
  s.toList.all pyWhitespace

namespace CarRepository

/-- `CarRepository._validate_year`: raise unless `1900 ≤ year ≤ 2030`.
(The `isinstance(year, int)` guard always passes for an `Int`.) -/
def validate_year (year : Int) : Except String Unit :=
  if year < 1900 ∨ year > 2030 then
    .error "Year must be between 1900 and 2030"
  else
    .ok ()

/-- `CarRepository._validate_price`: raise on a negative price, then on a
price above the 10 million cap.  (The `isinstance` guard always passes.) -/
def validate_price (price : Rat) : Except String Unit :=
  if price < 0 then
    .error "Price cannot be negative"
  else if price > 10000000 then
    .error "Price is unreasonably high"
  else
    .ok ()

/-- `CarRepository._validate_car_data`: required-text checks for make, model
and color, then the year check, then the price check; the first failing check
raises. -/
def validate_car_data (make model : String) (year : Int) (color : String)
    (price : Rat) : Except String Unit :=
  if pyBlank make then .error "Make is required"
  else if pyBlank model then .error "Model is required"
  else if pyBlank color then .error "Color is required"
  else
    match validate_year year with
    | .error e => .error e
    | .ok () => validate_price price

/-- `CarRepository.create`: validate all fields, then insert a new row with
the next auto-increment id and commit. -/
def create (s : Store) (make model : String) (year : Int) (color : String)
    (price : Rat) : Except RepoError (Car × Store) :=
  match validate_car_data make model year color price with
  | .error e => .error (.validation e)
  | .ok () =>
    let new_car : Car := ⟨s.nextId, make, model, year, color, price⟩
    .ok (new_car, ⟨s.rows ++ [new_car], s.nextId + 1⟩)

/-- `CarRepository.find_all`: every row. -/
def find_all (s : Store) : List Car := s.rows

/-- `CarRepository.find_by_id`: get by primary key, `abort(404)` when the row
is absent. -/
def find_by_id (s : Store) (car_id : Nat) : Except RepoError Car :=
  match s.getById car_id with
  | none => .error .notFound
  | some car => .ok car

/-- Committing a mutated row: the row with the matching primary key is
replaced, everything else is untouched. -/
def commitRow (s : Store) (car : Car) : Store :=
  ⟨s.rows.map fun r => if r.id == car.id then car else r, s.nextId⟩

/-- The tail of `CarRepository.update` after the year step: assign color,
validate and assign price, commit the mutated row. -/
def updateRest (s : Store) (car2 : Car) (color : Option String)
    (price : Option Rat) : Except RepoError (Car × Store) :=
  let car3 := match color with
    | some c => { car2 with color := c }
    | none => car2
  match price with
  | some p =>
    match validate_price p with
    | .error e => .error (.validation e)
    | .ok () =>
      let car4 : Car := { car3 with price := p }
      .ok (car4, commitRow s car4)
  | none => .ok (car3, commitRow s car3)

/-- `CarRepository.update`: load the row (`abort(404)` when absent), assign
each supplied field in source order — make, model, year (validated first),
color, price (validated first) — and commit.  A raised `ValueError` aborts
before the commit, so the store is untouched. -/
def update (s : Store) (car_id : Nat) (make model : Option String)
    (year : Option Int) (color : Option String) (price : Option Rat) :
    Except RepoError (Car × Store) :=
  match s.getById car_id with
  | none => .error .notFound
  | some car0 =>
    let car1 := match make with
      | some m => { car0 with make := m }
      | none => car0
    let car2 := match model with
      | some m => { car1 with model := m }
      | none => car1
    match year with
    | some y =>
      match validate_year y with
      | .error e => .error (.validation e)
      | .ok () => updateRest s { car2 with year := y } color price
    | none => updateRest s car2 color price

/-- The identity snapshot `delete` returns before removing the row:
id, derived display name, make, model, year — and nothing else. -/
structure CarInfo where
  id : Nat
  full_name : String
  make : String
  model : String
  year : Int
deriving Repr, DecidableEq

/-- `CarRepository.delete`: load the row (`abort(404)` when absent), capture
the snapshot, delete the row by primary key, commit, return the snapshot. -/
def delete (s : Store) (car_id : Nat) : Except RepoError (CarInfo × Store) :=
  match s.getById car_id with
  | none => .error .notFound
  | some car =>
    let car_info : CarInfo := ⟨car.id, car.full_name, car.make, car.model, car.year⟩
    .ok (car_info, ⟨s.rows.filter fun r => !(r.id == car_id), s.nextId⟩)

/-- `CarRepository.count`: number of rows. -/
def count (s : Store) : Nat := s.rows.length

/-- Run a field check only when the field was supplied. -/
def validateOpt {α : Type} (f : α → Except String Unit) :
    Option α → Except String Unit
  | some x => f x
  | none => .ok ()

/-- The §4.1 required-text check, as the spec words it: fail with the given
message when the value is empty or all-whitespace. -/
def required_text_check (errMsg : String) (v : String) : Except String Unit :=
  if pyBlank v then .error errMsg else .ok ()

/-- The first failure in a list of already-run checks, the way §4.1 words
the composite check: raise on the first violation encountered, short-circuit
rather than accumulate. -/
def firstFailure : List (Except String Unit) → Except String Unit
  | [] => .ok ()
  | .error e :: _ => .error e
  | .ok _ :: rest => firstFailure rest

/-- The update path exactly as §4.2 of the specification words it: load the
row (not-found if absent), re-validate year if supplied, re-validate price
if supplied, then write every supplied field — make, model and color with no
check of their own — and persist.  Stated for comparison with `update`,
which was translated from the source. -/
def update_as_specified (s : Store) (car_id : Nat) (make model : Option String)
    (year : Option Int) (color : Option String) (price : Option Rat) :
    Except RepoError (Car × Store) :=
  match s.getById car_id with
  | none => .error .notFound
  | some car0 =>
    match validateOpt validate_year year with
    | .error e => .error (.validation e)
    | .ok () =>
      match validateOpt validate_price price with
      | .error e => .error (.validation e)
      | .ok () =>
        let car : Car := ⟨car0.id, make.getD car0.make, model.getD car0.model,
                          year.getD car0.year, color.getD car0.color,
                          price.getD car0.price⟩
        .ok (car, commitRow s car)

/-- `CarRepository.exists`: filter the rows by id, take the first result,
test it against `None`.  (Named `existsRow` because `exists` is reserved in
Lean.) -/
def existsRow (s : Store) (car_id : Nat) : Bool :=
  ((s.rows.filter fun r => r.id == car_id).head?).isSome

end CarRepository

/-- One write request arriving at the repository: the three operations that
can mutate the store. -/
inductive Op where
  | create (make model : String) (year : Int) (color : String) (price : Rat)
  | update (car_id : Nat) (make model : Option String) (year : Option Int)
      (color : Option String) (price : Option Rat)
  | delete (car_id : Nat)
deriving Repr, DecidableEq

/-- The store after one request: the committed store when the operation
succeeded, the unchanged store when it raised. -/
def applyOp (s : Store) (op : Op) : Store :=
  match op with
  | .create mk md y c p => postStore s (CarRepository.create s mk md y c p)
  | .update i mk md y c p => postStore s (CarRepository.update s i mk md y c p)
  | .delete i => postStore s (CarRepository.delete s i)

/-- The store after a sequence of write requests against a fresh database. -/
def runOps (ops : List Op) : Store := ops.foldl applyOp Store.empty

/-- Well-formedness maintained by the auto-increment primary key: every
row's id is below the next id to be handed out, and no two rows share an
id. -/
def Store.WF (s : Store) : Prop :=
  (∀ r ∈ s.rows, r.id < s.nextId) ∧ (s.rows.map Car.id).Nodup

/-- The §3 field constraints on one persisted record, all at once: make,
model and color non-blank and within the declared column widths, year in
[1900, 2030], price in [0, 10000000]. -/
def Car.constraintsOK (c : Car) : Prop :=
  pyBlank c.make = false ∧ c.make.length ≤ 50 ∧
  pyBlank c.model = false ∧ c.model.length ≤ 50 ∧
  pyBlank c.color = false ∧ c.color.length ≤ 30 ∧
  1900 ≤ c.year ∧ c.year ≤ 2030 ∧ 0 ≤ c.price ∧ c.price ≤ 10000000

instance (c : Car) : Decidable (Car.constraintsOK c) := by
  unfold Car.constraintsOK
  infer_instance

/-- The numeric-range part of the §3 constraints on one record: year in
[1900, 2030] and price in [0, 10000000] — the part every write path
validates. -/
def Car.rangesOK (c : Car) : Prop :=
  1900 ≤ c.year ∧ c.year ≤ 2030 ∧ 0 ≤ c.price ∧ c.price ≤ 10000000

instance (c : Car) : Decidable (Car.rangesOK c) := by
  unfold Car.rangesOK
  infer_instance

namespace CarRepository

lemma validate_year_ok_iff (y : Int) :
    validate_year y = .ok () ↔ 1900 ≤ y ∧ y ≤ 2030 := by
  unfold validate_year
  split <;> rename_i h
  · simp only [reduceCtorEq, false_iff]
    omega
  · push_neg at h
    simp only [true_iff]
    omega

lemma validate_price_ok_iff (p : Rat) :
    validate_price p = .ok () ↔ 0 ≤ p ∧ p ≤ 10000000 := by
  unfold validate_price
  split <;> rename_i h1
  · simp only [reduceCtorEq, false_iff, not_and]
    intro h2
    exact absurd h1 (not_lt.mpr h2)
  · split <;> rename_i h2
    · simp only [reduceCtorEq, false_iff, not_and, not_le]
      intro _
      exact h2
    · simp only [true_iff]
      exact ⟨not_lt.mp h1, not_lt.mp h2⟩

lemma validate_car_data_ok_iff (mk md : String) (y : Int) (cl : String) (p : Rat) :
    validate_car_data mk md y cl p = .ok () ↔
      pyBlank mk = false ∧ pyBlank md = false ∧ pyBlank cl = false ∧
        (1900 ≤ y ∧ y ≤ 2030) ∧ (0 ≤ p ∧ p ≤ 10000000) := by
  unfold validate_car_data
  split <;> rename_i h1
  · simp [h1]
  · split <;> rename_i h2
    · simp [h1, h2]
    · split <;> rename_i h3
      · simp [h1, h2, h3]
      · rw [Bool.not_eq_true] at h1 h2 h3
        simp only [h1, h2, h3, true_and]
        rcases hy : validate_year y with e | u
        · rw [← validate_year_ok_iff]
          simp [hy]
        · rw [← validate_year_ok_iff, ← validate_price_ok_iff, hy]
          simp

lemma getById_eq_some {s : Store} {i : Nat} {c : Car} (h : s.getById i = some c) :
    c ∈ s.rows ∧ c.id = i := by
  unfold Store.getById at h
  refine ⟨List.mem_of_find?_eq_some h, ?_⟩
  have := List.find?_some h
  simpa using this

lemma validateOpt_ok_iff {α : Type} (f : α → Except String Unit) (o : Option α) :
    validateOpt f o = .ok () ↔ ∀ x ∈ o, f x = .ok () := by
  cases o <;> simp [validateOpt]

lemma update_eq_spec (s : Store) (car_id : Nat) (mk md : Option String)
    (y : Option Int) (cl : Option String) (p : Option Rat) :
    update s car_id mk md y cl p = update_as_specified s car_id mk md y cl p := by
  unfold update update_as_specified
  cases hg : s.getById car_id with
  | none => rfl
  | some car0 =>
    cases y with
    | none =>
      cases p with
      | none => cases mk <;> cases md <;> cases cl <;> rfl
      | some q =>
        cases hq : validate_price q with
        | error e =>
          cases mk <;> cases md <;> cases cl <;> simp [updateRest, validateOpt, hq]
        | ok u =>
          cases u
          cases mk <;> cases md <;> cases cl <;> simp [updateRest, validateOpt, hq]
    | some z =>
      cases hz : validate_year z with
      | error e => simp [validateOpt, hz]
      | ok u =>
        cases u
        cases p with
        | none =>
          cases mk <;> cases md <;> cases cl <;> simp [updateRest, validateOpt, hz]
        | some q =>
          cases hq : validate_price q with
          | error e =>
            cases mk <;> cases md <;> cases cl <;>
              simp [updateRest, validateOpt, hz, hq]
          | ok u =>
            cases u
            cases mk <;> cases md <;> cases cl <;>
              simp [updateRest, validateOpt, hz, hq]

lemma getById_commitRow (s : Store) (c : Car) (j : Nat) :
    (commitRow s c).getById j =
      (s.getById j).map fun r => if r.id == c.id then c else r := by
  unfold commitRow Store.getById
  rw [List.find?_map]
  have hpred : ((fun r => r.id == j) ∘ fun r => if r.id == c.id then c else r) =
      fun r : Car => r.id == j := by
    funext r
    by_cases h : r.id = c.id <;> simp [Function.comp, h]
  rw [hpred]

lemma getById_commitRow_self {s : Store} {c c0 : Car}
    (h : s.getById c.id = some c0) :
    (commitRow s c).getById c.id = some c := by
  rw [getById_commitRow, h]
  have := (getById_eq_some h).2
  simp [this]

lemma getById_commitRow_other {s : Store} {c : Car} {j : Nat} (hj : j ≠ c.id) :
    (commitRow s c).getById j = s.getById j := by
  rw [getById_commitRow]
  cases hg : s.getById j with
  | none => rfl
  | some r0 =>
    have hr0 : r0.id = j := (getById_eq_some hg).2
    simp [hr0, hj]

lemma existsRow_eq_isSome_getById (s : Store) (i : Nat) :
    existsRow s i = (s.getById i).isSome := by
  unfold existsRow Store.getById
  rw [List.filter_head?]

lemma getById_append_fresh (s : Store) (c : Car) (n : Nat)
    (h : ∀ r ∈ s.rows, r.id ≠ c.id) :
    (Store.mk (s.rows ++ [c]) n).getById c.id = some c := by
  unfold Store.getById
  rw [List.find?_append]
  have hnone : (s.rows.find? fun r => r.id == c.id) = none := by
    rw [List.find?_eq_none]
    intro x hx
    simpa using h x hx
  simp [hnone]

lemma countP_id_eq_one {s : Store} (hnd : (s.rows.map Car.id).Nodup) {i : Nat}
    {c : Car} (h : s.getById i = some c) :
    s.rows.countP (fun r => r.id == i) = 1 := by
  obtain ⟨hmem, hid⟩ := getById_eq_some h
  have h1 : s.rows.countP (fun r => r.id == i) = (s.rows.map Car.id).count i := by
    rw [List.count, List.countP_map]
    rfl
  rw [h1]
  have hle := List.nodup_iff_count_le_one.mp hnd i
  have hpos : 0 < (s.rows.map Car.id).count i :=
    List.count_pos_iff.mpr (List.mem_map.mpr ⟨c, hmem, hid⟩)
  omega

lemma create_ok_of_valid {s : Store} {mk md : String} {y : Int} {cl : String}
    {p : Rat} (h : validate_car_data mk md y cl p = .ok ()) :
    create s mk md y cl p =
      .ok (⟨s.nextId, mk, md, y, cl, p⟩,
           ⟨s.rows ++ [⟨s.nextId, mk, md, y, cl, p⟩], s.nextId + 1⟩) := by
  unfold create
  rw [h]

lemma create_error_of_invalid {s : Store} {mk md : String} {y : Int} {cl : String}
    {p : Rat} {e : String} (h : validate_car_data mk md y cl p = .error e) :
    create s mk md y cl p = .error (.validation e) := by
  unfold create
  rw [h]

lemma create_ok_inv {s : Store} {mk md : String} {y : Int} {cl : String} {p : Rat}
    {c : Car} {s2 : Store} (h : create s mk md y cl p = .ok (c, s2)) :
    validate_car_data mk md y cl p = .ok () ∧
      c = ⟨s.nextId, mk, md, y, cl, p⟩ ∧
      s2 = ⟨s.rows ++ [c], s.nextId + 1⟩ := by
  unfold create at h
  cases hv : validate_car_data mk md y cl p with
  | error e => rw [hv] at h; exact absurd h (by simp)
  | ok u =>
    cases u
    rw [hv] at h
    simp only [Except.ok.injEq, Prod.mk.injEq] at h
    obtain ⟨hc, hs⟩ := h
    exact ⟨rfl, hc.symm, by rw [← hs, hc]⟩

lemma update_notFound {s : Store} {i : Nat} (hg : s.getById i = none)
    (mk md : Option String) (y : Option Int) (cl : Option String)
    (p : Option Rat) :
    update s i mk md y cl p = .error .notFound := by
  unfold update
  rw [hg]

lemma update_ok_of_valid {s : Store} {i : Nat} {c0 : Car}
    (hg : s.getById i = some c0) (mk md : Option String) {y : Option Int}
    (cl : Option String) {p : Option Rat}
    (hy : ∀ z ∈ y, validate_year z = .ok ())
    (hp : ∀ q ∈ p, validate_price q = .ok ()) :
    update s i mk md y cl p =
      .ok (⟨c0.id, mk.getD c0.make, md.getD c0.model, y.getD c0.year,
            cl.getD c0.color, p.getD c0.price⟩,
           commitRow s ⟨c0.id, mk.getD c0.make, md.getD c0.model, y.getD c0.year,
            cl.getD c0.color, p.getD c0.price⟩) := by
  rw [update_eq_spec]
  unfold update_as_specified
  have hy2 : validateOpt validate_year y = .ok () := (validateOpt_ok_iff _ _).mpr hy
  have hp2 : validateOpt validate_price p = .ok () := (validateOpt_ok_iff _ _).mpr hp
  simp only [hg, hy2, hp2]

lemma update_invalid_year {s : Store} {i : Nat} {c0 : Car}
    (hg : s.getById i = some c0) (mk md : Option String) {z : Int}
    (cl : Option String) (p : Option Rat) {e : String}
    (hz : validate_year z = .error e) :
    update s i mk md (some z) cl p = .error (.validation e) := by
  rw [update_eq_spec]
  unfold update_as_specified
  simp only [hg, validateOpt, hz]

lemma update_invalid_price {s : Store} {i : Nat} {c0 : Car}
    (hg : s.getById i = some c0) (mk md : Option String) {y : Option Int}
    (cl : Option String) {q : Rat} {e : String}
    (hy : ∀ z ∈ y, validate_year z = .ok ())
    (hq : validate_price q = .error e) :
    update s i mk md y cl (some q) = .error (.validation e) := by
  rw [update_eq_spec]
  unfold update_as_specified
  have hy2 : validateOpt validate_year y = .ok () := (validateOpt_ok_iff _ _).mpr hy
  have hq2 : validateOpt validate_price (some q) = .error e := hq
  simp only [hg, hy2, hq2]

lemma update_ok_inv {s : Store} {i : Nat} {mk md : Option String} {y : Option Int}
    {cl : Option String} {p : Option Rat} {c : Car} {s2 : Store}
    (h : update s i mk md y cl p = .ok (c, s2)) :
    ∃ c0, s.getById i = some c0 ∧
      c = ⟨c0.id, mk.getD c0.make, md.getD c0.model, y.getD c0.year,
           cl.getD c0.color, p.getD c0.price⟩ ∧
      s2 = commitRow s c ∧
      (∀ z ∈ y, validate_year z = .ok ()) ∧
      (∀ q ∈ p, validate_price q = .ok ()) := by
  rw [update_eq_spec] at h
  unfold update_as_specified at h
  cases hg : s.getById i with
  | none => rw [hg] at h; exact absurd h (by simp)
  | some c0 =>
    simp only [hg] at h
    cases hy : validateOpt validate_year y with
    | error e => rw [hy] at h; exact absurd h (by simp)
    | ok u =>
      cases u
      rw [hy] at h
      cases hp : validateOpt validate_price p with
      | error e => rw [hp] at h; exact absurd h (by simp)
      | ok u =>
        cases u
        rw [hp] at h
        simp only [Except.ok.injEq, Prod.mk.injEq] at h
        obtain ⟨hc, hs⟩ := h
        exact ⟨c0, rfl, hc.symm, by rw [← hs, hc],
          (validateOpt_ok_iff _ _).mp hy, (validateOpt_ok_iff _ _).mp hp⟩

lemma delete_notFound {s : Store} {i : Nat} (hg : s.getById i = none) :
    delete s i = .error .notFound := by
  unfold delete
  rw [hg]

lemma delete_ok {s : Store} {i : Nat} {c : Car} (hg : s.getById i = some c) :
    delete s i =
      .ok (⟨c.id, c.full_name, c.make, c.model, c.year⟩,
           ⟨s.rows.filter fun r => !(r.id == i), s.nextId⟩) := by
  unfold delete
  rw [hg]

lemma find_by_id_notFound {s : Store} {i : Nat} (hg : s.getById i = none) :
    find_by_id s i = .error .notFound := by
  unfold find_by_id
  rw [hg]

lemma delete_ok_inv {s : Store} {i : Nat} {info : CarInfo} {s2 : Store}
    (h : delete s i = .ok (info, s2)) :
    ∃ c, s.getById i = some c ∧
      info = ⟨c.id, c.full_name, c.make, c.model, c.year⟩ ∧
      s2 = ⟨s.rows.filter fun r => !(r.id == i), s.nextId⟩ := by
  unfold delete at h
  cases hg : s.getById i with
  | none => rw [hg] at h; exact absurd h (by simp)
  | some c =>
    rw [hg] at h
    simp only [Except.ok.injEq, Prod.mk.injEq] at h
    exact ⟨c, rfl, h.1.symm, h.2.symm⟩

lemma WF_empty : Store.WF Store.empty := by
  constructor
  · intro r hr
    simp [Store.empty] at hr
  · simp [Store.empty]

lemma map_id_commitRow (s : Store) (c : Car) :
    (commitRow s c).rows.map Car.id = s.rows.map Car.id := by
  unfold commitRow
  rw [List.map_map]
  have hfun : (Car.id ∘ fun r => if r.id == c.id then c else r) = Car.id := by
    funext r
    by_cases h : r.id = c.id <;> simp [Function.comp, h]
  rw [hfun]

lemma WF_commitRow {s : Store} (h : Store.WF s) {c c0 : Car}
    (hc0 : c0 ∈ s.rows) (hid : c.id = c0.id) : Store.WF (commitRow s c) := by
  obtain ⟨hb, hnd⟩ := h
  constructor
  · intro r hr
    simp only [commitRow, List.mem_map] at hr
    obtain ⟨r0, hr0, hre⟩ := hr
    show r.id < s.nextId
    by_cases hh : r0.id = c.id
    · rw [← hre]
      simp only [hh, beq_self_eq_true, if_true]
      rw [hid]
      exact hb c0 hc0
    · rw [← hre]
      simp only [hh, beq_iff_eq, if_neg hh]
      exact hb r0 hr0
  · show ((commitRow s c).rows.map Car.id).Nodup
    rw [map_id_commitRow]
    exact hnd

lemma WF_create_ok {s : Store} (hwf : Store.WF s) {mk md : String} {y : Int}
    {cl : String} {p : Rat} {c : Car} {s2 : Store}
    (h : create s mk md y cl p = .ok (c, s2)) : Store.WF s2 := by
  obtain ⟨hv, hc, hs⟩ := create_ok_inv h
  obtain ⟨hb, hnd⟩ := hwf
  subst hs
  constructor
  · intro r hr
    simp only [List.mem_append, List.mem_singleton] at hr
    rcases hr with hr | rfl
    · exact Nat.lt_succ_of_lt (hb r hr)
    · rw [hc]
      exact Nat.lt_succ_self _
  · show ((s.rows ++ [c]).map Car.id).Nodup
    rw [List.map_append]
    rw [List.nodup_append]
    refine ⟨hnd, List.nodup_singleton _, ?_⟩
    intro a ha ha2
    simp only [List.map_cons, List.map_nil, List.mem_singleton] at ha2
    subst ha2
    simp only [List.mem_map] at ha
    obtain ⟨r, hr, hre⟩ := ha
    have := hb r hr
    rw [hre, hc] at this
    exact absurd this (by simp)

lemma WF_update_ok {s : Store} (hwf : Store.WF s) {i : Nat}
    {mk md : Option String} {y : Option Int} {cl : Option String}
    {p : Option Rat} {c : Car} {s2 : Store}
    (h : update s i mk md y cl p = .ok (c, s2)) : Store.WF s2 := by
  obtain ⟨c0, hg, hc, hs, _, _⟩ := update_ok_inv h
  subst hs
  exact WF_commitRow hwf (getById_eq_some hg).1 (by rw [hc])

lemma WF_delete_ok {s : Store} (hwf : Store.WF s) {i : Nat} {info : CarInfo}
    {s2 : Store} (h : delete s i = .ok (info, s2)) : Store.WF s2 := by
  obtain ⟨c, hg, hinfo, hs⟩ := delete_ok_inv h
  obtain ⟨hb, hnd⟩ := hwf
  subst hs
  constructor
  · intro r hr
    exact hb r (List.mem_of_mem_filter hr)
  · show (((s.rows.filter fun r => !(r.id == i)).map Car.id)).Nodup
    exact List.Nodup.sublist ((List.filter_sublist _).map _) hnd

lemma WF_applyOp {s : Store} (h : Store.WF s) (op : Op) :
    Store.WF (applyOp s op) := by
  cases op with
  | create mk md y cl p =>
    cases hc : create s mk md y cl p with
    | error e => simpa only [applyOp, postStore, hc] using h
    | ok pr =>
      obtain ⟨c, s2⟩ := pr
      simpa only [applyOp, postStore, hc] using WF_create_ok h hc
  | update i mk md y cl p =>
    cases hc : update s i mk md y cl p with
    | error e => simpa only [applyOp, postStore, hc] using h
    | ok pr =>
      obtain ⟨c, s2⟩ := pr
      simpa only [applyOp, postStore, hc] using WF_update_ok h hc
  | delete i =>
    cases hc : delete s i with
    | error e => simpa only [applyOp, postStore, hc] using h
    | ok pr =>
      obtain ⟨info, s2⟩ := pr
      simpa only [applyOp, postStore, hc] using WF_delete_ok h hc

lemma WF_foldl {s : Store} (h : Store.WF s) (ops : List Op) :
    Store.WF (ops.foldl applyOp s) := by
  induction ops generalizing s with
  | nil => exact h
  | cons op ops ih => exact ih (WF_applyOp h op)

lemma WF_runOps (ops : List Op) : Store.WF (runOps ops) :=
  WF_foldl WF_empty ops

lemma rangesOK_create_ok {s : Store} (h : ∀ r ∈ s.rows, Car.rangesOK r)
    {mk md : String} {y : Int} {cl : String} {p : Rat} {c : Car} {s2 : Store}
    (hc : create s mk md y cl p = .ok (c, s2)) :
    ∀ r ∈ s2.rows, Car.rangesOK r := by
  obtain ⟨hv, hce, hs⟩ := create_ok_inv hc
  rw [validate_car_data_ok_iff] at hv
  subst hs
  intro r hr
  simp only [List.mem_append, List.mem_singleton] at hr
  rcases hr with hr | rfl
  · exact h r hr
  · rw [hce]
    exact ⟨hv.2.2.2.1.1, hv.2.2.2.1.2, hv.2.2.2.2.1, hv.2.2.2.2.2⟩

lemma rangesOK_update_ok {s : Store} (h : ∀ r ∈ s.rows, Car.rangesOK r)
    {i : Nat} {mk md : Option String} {y : Option Int} {cl : Option String}
    {p : Option Rat} {c : Car} {s2 : Store}
    (hc : update s i mk md y cl p = .ok (c, s2)) :
    ∀ r ∈ s2.rows, Car.rangesOK r := by
  obtain ⟨c0, hg, hce, hs, hy, hp⟩ := update_ok_inv hc
  have hmem0 := (getById_eq_some hg).1
  have hr0 := h c0 hmem0
  have hcr : Car.rangesOK c := by
    rw [hce]
    refine ⟨?_, ?_, ?_, ?_⟩
    · cases y with
      | none => exact hr0.1
      | some z => exact ((validate_year_ok_iff z).mp (hy z rfl)).1
    · cases y with
      | none => exact hr0.2.1
      | some z => exact ((validate_year_ok_iff z).mp (hy z rfl)).2
    · cases p with
      | none => exact hr0.2.2.1
      | some q => exact ((validate_price_ok_iff q).mp (hp q rfl)).1
    · cases p with
      | none => exact hr0.2.2.2
      | some q => exact ((validate_price_ok_iff q).mp (hp q rfl)).2
  subst hs
  intro r hr
  simp only [commitRow, List.mem_map] at hr
  obtain ⟨r0, hrm, hre⟩ := hr
  by_cases hh : r0.id = c.id
  · rw [← hre]
    simp only [hh, beq_self_eq_true, if_true]
    exact hcr
  · rw [← hre]
    simp only [beq_iff_eq, if_neg hh]
    exact h r0 hrm

lemma rangesOK_delete_ok {s : Store} (h : ∀ r ∈ s.rows, Car.rangesOK r)
    {i : Nat} {info : CarInfo} {s2 : Store}
    (hc : delete s i = .ok (info, s2)) :
    ∀ r ∈ s2.rows, Car.rangesOK r := by
  obtain ⟨c, hg, hinfo, hs⟩ := delete_ok_inv hc
  subst hs
  intro r hr
  exact h r (List.mem_of_mem_filter hr)

lemma rangesOK_applyOp {s : Store} (h : ∀ r ∈ s.rows, Car.rangesOK r)
    (op : Op) : ∀ r ∈ (applyOp s op).rows, Car.rangesOK r := by
  cases op with
  | create mk md y cl p =>
    cases hc : create s mk md y cl p with
    | error e => simpa only [applyOp, postStore, hc] using h
    | ok pr =>
      obtain ⟨c, s2⟩ := pr
      simpa only [applyOp, postStore, hc] using rangesOK_create_ok h hc
  | update i mk md y cl p =>
    cases hc : update s i mk md y cl p with
    | error e => simpa only [applyOp, postStore, hc] using h
    | ok pr =>
      obtain ⟨c, s2⟩ := pr
      simpa only [applyOp, postStore, hc] using rangesOK_update_ok h hc
  | delete i =>
    cases hc : delete s i with
    | error e => simpa only [applyOp, postStore, hc] using h
    | ok pr =>
      obtain ⟨info, s2⟩ := pr
      simpa only [applyOp, postStore, hc] using rangesOK_delete_ok h hc

lemma rangesOK_foldl {s : Store} (h : ∀ r ∈ s.rows, Car.rangesOK r)
    (ops : List Op) : ∀ r ∈ (ops.foldl applyOp s).rows, Car.rangesOK r := by
  induction ops generalizing s with
  | nil => exact h
  | cons op ops ih => exact ih (rangesOK_applyOp h op)

end CarRepository

open CarRepository

/-- Claim C1: for every well-formed store and every valid input — make,
model, color non-empty and not all-whitespace, year an integer in
[1900, 2030], price in [0, 10000000] — create succeeds, and find_by_id on
the identifier of the returned entity yields an entity whose make, model,
year, color and price equal the values passed to create. -/
theorem c1_create_then_find_by_id_roundtrip (s : Store) (hwf : Store.WF s)
    (mk md : String) (y : Int) (cl : String) (p : Rat)
    (hmk : pyBlank mk = false) (hmd : pyBlank md = false)
    (hcl : pyBlank cl = false) (hy1 : 1900 ≤ y) (hy2 : y ≤ 2030)
    (hp1 : 0 ≤ p) (hp2 : p ≤ 10000000) :
    ∃ car s2, create s mk md y cl p = .ok (car, s2) ∧
      find_by_id s2 car.id = .ok car ∧
      car.make = mk ∧ car.model = md ∧ car.year = y ∧
      car.color = cl ∧ car.price = p := by
  have hv : validate_car_data mk md y cl p = .ok () :=
    (validate_car_data_ok_iff mk md y cl p).mpr
      ⟨hmk, hmd, hcl, ⟨hy1, hy2⟩, ⟨hp1, hp2⟩⟩
  refine ⟨⟨s.nextId, mk, md, y, cl, p⟩, _, create_ok_of_valid hv, ?_,
    rfl, rfl, rfl, rfl, rfl⟩
  unfold find_by_id
  have hfresh : ∀ r ∈ s.rows, r.id ≠ (⟨s.nextId, mk, md, y, cl, p⟩ : Car).id := by
    intro r hr
    have := hwf.1 r hr
    show r.id ≠ s.nextId
    omega
  rw [getById_append_fresh s _ _ hfresh]

/-- Witness for C1 at a concrete valid input on the empty store. -/
theorem c1_witness :
    ∃ car s2, create Store.empty "Toyota" "Camry" 2023 "Blue" 28500 =
        .ok (car, s2) ∧
      find_by_id s2 car.id = .ok car ∧
      car.make = "Toyota" ∧ car.model = "Camry" ∧ car.year = 2023 ∧
      car.color = "Blue" ∧ car.price = 28500 :=
  c1_create_then_find_by_id_roundtrip Store.empty WF_empty
    "Toyota" "Camry" 2023 "Blue" 28500 (by decide) (by decide) (by decide)
    (by decide) (by decide) (by norm_num) (by norm_num)

/-- Claim C3: on every store and argument list, update coincides with the
§4.2 description `update_as_specified`: it re-validates year when supplied
and price when supplied (failing with that check's validation error), while
supplied make, model and color values are written with no re-validation at
all — in particular an empty make is accepted on an existing row. -/
theorem c3_update_revalidates_only_year_and_price (s : Store) (car_id : Nat)
    (mk md : Option String) (y : Option Int) (cl : Option String)
    (p : Option Rat) :
    update s car_id mk md y cl p = update_as_specified s car_id mk md y cl p :=
  update_eq_spec s car_id mk md y cl p

/-- Claim C8: on an identifier with no row, find_by_id, update and delete
all signal not-found — not a validation error — and the store the caller
observes afterwards is unchanged. -/
theorem c8_absent_id_signals_not_found (s : Store) (i : Nat)
    (habs : existsRow s i = false) (mk md : Option String) (y : Option Int)
    (cl : Option String) (p : Option Rat) :
    find_by_id s i = .error .notFound ∧
      update s i mk md y cl p = .error .notFound ∧
      delete s i = .error .notFound ∧
      postStore s (update s i mk md y cl p) = s ∧
      postStore s (delete s i) = s := by
  have hg : s.getById i = none := by
    rw [existsRow_eq_isSome_getById] at habs
    cases h2 : s.getById i with
    | none => rfl
    | some c => rw [h2] at habs; simp at habs
  refine ⟨find_by_id_notFound hg, update_notFound hg mk md y cl p,
    delete_notFound hg, ?_, ?_⟩
  · rw [update_notFound hg mk md y cl p]
    rfl
  · rw [delete_notFound hg]
    rfl

/-- Witness for C8 on the empty store at identifier 1. -/
theorem c8_witness :
    find_by_id Store.empty 1 = .error .notFound ∧
      update Store.empty 1 none none none none none = .error .notFound ∧
      delete Store.empty 1 = .error .notFound ∧
      postStore Store.empty (update Store.empty 1 none none none none none) =
        Store.empty ∧
      postStore Store.empty (delete Store.empty 1) = Store.empty :=
  c8_absent_id_signals_not_found Store.empty 1 (by decide)
    none none none none none

/-- Claim C4: when update on an existing row is given a supplied year or
price that fails validation, it raises a validation error and nothing is
committed: the store the caller observes afterwards is its prior state, so
the record keeps all its prior field values even when new make, model or
color values were supplied in the same call. -/
theorem c4_update_validation_error_mutates_nothing (s : Store) (i : Nat)
    (c0 : Car) (hg : s.getById i = some c0) (mk md : Option String)
    (y : Option Int) (cl : Option String) (p : Option Rat)
    (hbad : (∃ z ∈ y, validate_year z ≠ .ok ()) ∨
      ((∀ z ∈ y, validate_year z = .ok ()) ∧
        ∃ q ∈ p, validate_price q ≠ .ok ())) :
    (∃ e, update s i mk md y cl p = .error (.validation e)) ∧
      postStore s (update s i mk md y cl p) = s ∧
      (postStore s (update s i mk md y cl p)).getById i = some c0 := by
  obtain ⟨e, he⟩ : ∃ e, update s i mk md y cl p = .error (.validation e) := by
    rcases hbad with ⟨z, hz, hne⟩ | ⟨hyok, q, hq, hne⟩
    · rw [Option.mem_def] at hz
      subst hz
      cases hv : validate_year z with
      | ok u => cases u; exact absurd hv hne
      | error e2 => exact ⟨e2, update_invalid_year hg mk md cl p hv⟩
    · rw [Option.mem_def] at hq
      subst hq
      cases hv : validate_price q with
      | ok u => cases u; exact absurd hv hne
      | error e2 => exact ⟨e2, update_invalid_price hg mk md cl hyok hv⟩
  refine ⟨⟨e, he⟩, ?_, ?_⟩
  · rw [he]
    rfl
  · rw [he]
    exact hg

/-- Witness for C4: one-row store, update supplies a new make together with
an out-of-range year; the call errors and the row is untouched. -/
theorem c4_witness :
    (∃ e, update ⟨[⟨1, "Toyota", "Camry", 2023, "Blue", 28500⟩], 2⟩ 1
        (some "Honda") none (some 1800) none none =
        .error (.validation e)) ∧
      postStore ⟨[⟨1, "Toyota", "Camry", 2023, "Blue", 28500⟩], 2⟩
        (update ⟨[⟨1, "Toyota", "Camry", 2023, "Blue", 28500⟩], 2⟩ 1
          (some "Honda") none (some 1800) none none) =
        ⟨[⟨1, "Toyota", "Camry", 2023, "Blue", 28500⟩], 2⟩ ∧
      (postStore ⟨[⟨1, "Toyota", "Camry", 2023, "Blue", 28500⟩], 2⟩
        (update ⟨[⟨1, "Toyota", "Camry", 2023, "Blue", 28500⟩], 2⟩ 1
          (some "Honda") none (some 1800) none none)).getById 1 =
        some ⟨1, "Toyota", "Camry", 2023, "Blue", 28500⟩ :=
  c4_update_validation_error_mutates_nothing
    ⟨[⟨1, "Toyota", "Camry", 2023, "Blue", 28500⟩], 2⟩ 1
    ⟨1, "Toyota", "Camry", 2023, "Blue", 28500⟩ (by decide)
    (some "Honda") none (some 1800) none none
    (Or.inl ⟨1800, rfl, by decide⟩)

/-- Claim C5: update on an existing row with only price supplied (and in
range) changes exactly that record's price: its make, model, year and color
keep their prior values, and every other record in the store is unchanged. -/
theorem c5_update_price_only_changes_only_price (s : Store) (i : Nat)
    (c0 : Car) (hg : s.getById i = some c0) (p : Rat)
    (hp1 : 0 ≤ p) (hp2 : p ≤ 10000000) :
    ∃ s2, update s i none none none none (some p) =
        .ok ({ c0 with price := p }, s2) ∧
      s2.getById i = some { c0 with price := p } ∧
      count s2 = count s ∧
      ∀ j, j ≠ i → s2.getById j = s.getById j := by
  have hid : c0.id = i := (getById_eq_some hg).2
  have hpok : validate_price p = .ok () := (validate_price_ok_iff p).mpr ⟨hp1, hp2⟩
  have hy : ∀ z ∈ (none : Option Int), validate_year z = .ok () := by simp
  have hp : ∀ q ∈ some p, validate_price q = .ok () := by
    intro q hq
    rw [Option.mem_def] at hq
    cases hq
    exact hpok
  have h := @update_ok_of_valid s i c0 hg none none none none (some p) hy hp
  refine ⟨commitRow s { c0 with price := p }, h, ?_, ?_, ?_⟩
  · have hgc : s.getById ({ c0 with price := p } : Car).id = some c0 := by
      show s.getById c0.id = some c0
      rw [hid]
      exact hg
    rw [← hid]
    exact getById_commitRow_self hgc
  · show (s.rows.map _).length = s.rows.length
    rw [List.length_map]
  · intro j hj
    exact getById_commitRow_other (by show j ≠ c0.id; rw [hid]; exact hj)

/-- Witness for C5: one-row store, price updated to 50000. -/
theorem c5_witness :
    ∃ s2, update ⟨[⟨1, "Toyota", "Camry", 2023, "Blue", 28500⟩], 2⟩ 1
        none none none none (some 50000) =
        .ok (⟨1, "Toyota", "Camry", 2023, "Blue", 50000⟩, s2) ∧
      s2.getById 1 = some ⟨1, "Toyota", "Camry", 2023, "Blue", 50000⟩ ∧
      count s2 = count ⟨[⟨1, "Toyota", "Camry", 2023, "Blue", 28500⟩], 2⟩ ∧
      ∀ j, j ≠ 1 →
        s2.getById j =
          Store.getById ⟨[⟨1, "Toyota", "Camry", 2023, "Blue", 28500⟩], 2⟩ j :=
  c5_update_price_only_changes_only_price
    ⟨[⟨1, "Toyota", "Camry", 2023, "Blue", 28500⟩], 2⟩ 1
    ⟨1, "Toyota", "Camry", 2023, "Blue", 28500⟩ (by decide) 50000
    (by norm_num) (by norm_num)

/-- Claim C6: for every year outside [1900, 2030] and every price below 0
or above 10000000, create fails with a validation error and adds no row:
the count of the store the caller observes afterwards is unchanged. -/
theorem c6_create_rejects_out_of_range (s : Store) (mk md : String) (y : Int)
    (cl : String) (p : Rat)
    (hbad : (y < 1900 ∨ 2030 < y) ∨ (p < 0 ∨ 10000000 < p)) :
    (∃ e, create s mk md y cl p = .error (.validation e)) ∧
      count (postStore s (create s mk md y cl p)) = count s := by
  have hne : validate_car_data mk md y cl p ≠ .ok () := by
    intro hok
    rw [validate_car_data_ok_iff] at hok
    rcases hbad with h | h
    · rcases hok.2.2.2.1 with ⟨a, b⟩
      rcases h with h | h <;> omega
    · rcases hok.2.2.2.2 with ⟨a, b⟩
      rcases h with h | h
      · exact absurd a (not_le.mpr h)
      · exact absurd b (not_le.mpr h)
  cases hv : validate_car_data mk md y cl p with
  | ok u => cases u; exact absurd hv hne
  | error e =>
    have he := @create_error_of_invalid s mk md y cl p e hv
    refine ⟨⟨e, he⟩, ?_⟩
    rw [he]
    rfl

/-- Witness for C6: the empty store rejects a 1800 model year. -/
theorem c6_witness :
    (∃ e, create Store.empty "Toyota" "Camry" 1800 "Blue" 28500 =
        .error (.validation e)) ∧
      count (postStore Store.empty
        (create Store.empty "Toyota" "Camry" 1800 "Blue" 28500)) =
        count Store.empty :=
  c6_create_rejects_out_of_range Store.empty "Toyota" "Camry" 1800 "Blue"
    28500 (Or.inl (Or.inl (by norm_num)))

/-- Claim C7: delete on an existing identifier removes exactly that row —
afterwards exists is false on it, the count drops by exactly one, and every
other identifier reads back unchanged — and returns the pre-removal
snapshot holding id, the derived display name (year, space, make, space,
model), make, model and year; the snapshot type carries no color and no
price. -/
theorem c7_delete_removes_exactly_one_row (s : Store) (hwf : Store.WF s)
    (i : Nat) (c : Car) (hg : s.getById i = some c) :
    ∃ s2, delete s i =
        .ok (⟨c.id, toString c.year ++ " " ++ c.make ++ " " ++ c.model,
              c.make, c.model, c.year⟩, s2) ∧
      existsRow s2 i = false ∧
      count s2 + 1 = count s ∧
      ∀ j, j ≠ i → s2.getById j = s.getById j := by
  refine ⟨⟨s.rows.filter fun r => !(r.id == i), s.nextId⟩, delete_ok hg,
    ?_, ?_, ?_⟩
  · show (((s.rows.filter fun r => !(r.id == i)).filter
      fun r => r.id == i).head?).isSome = false
    rw [List.filter_filter]
    have hfalse : (fun a : Car => (a.id == i) && !(a.id == i)) =
        fun _ => false := by
      funext r
      exact Bool.and_not_self _
    rw [hfalse]
    simp
  · show (s.rows.filter fun r => !(r.id == i)).length + 1 = s.rows.length
    have hc1 : s.rows.countP (fun r => r.id == i) = 1 :=
      countP_id_eq_one hwf.2 hg
    have hsum :=
      List.length_eq_countP_add_countP (fun r : Car => r.id == i) s.rows
    have hnot : (fun a : Car => (¬(a.id == i) : Bool)) =
        fun a : Car => !(a.id == i) := by
      funext a
      by_cases h : a.id = i <;> simp [h]
    rw [hnot] at hsum
    rw [← List.countP_eq_length_filter]
    omega
  · intro j hj
    show ((s.rows.filter fun r => !(r.id == i)).find? fun r => r.id == j) =
      s.rows.find? fun r => r.id == j
    rw [List.find?_filter]
    congr 1
    funext r
    by_cases h : r.id = j
    · simp [h, hj]
    · simp [h]

/-- Witness for C7 on a two-row store: deleting id 1 keeps id 2 intact. -/
theorem c7_witness :
    ∃ s2, delete ⟨[⟨1, "Toyota", "Camry", 2023, "Blue", 28500⟩,
        ⟨2, "Honda", "Civic", 2022, "Silver", 24000⟩], 3⟩ 1 =
        .ok (⟨1, "2023 Toyota Camry", "Toyota", "Camry", 2023⟩, s2) ∧
      existsRow s2 1 = false ∧
      count s2 + 1 =
        count ⟨[⟨1, "Toyota", "Camry", 2023, "Blue", 28500⟩,
          ⟨2, "Honda", "Civic", 2022, "Silver", 24000⟩], 3⟩ ∧
      ∀ j, j ≠ 1 →
        s2.getById j =
          Store.getById ⟨[⟨1, "Toyota", "Camry", 2023, "Blue", 28500⟩,
            ⟨2, "Honda", "Civic", 2022, "Silver", 24000⟩], 3⟩ j :=
  c7_delete_removes_exactly_one_row
    ⟨[⟨1, "Toyota", "Camry", 2023, "Blue", 28500⟩,
      ⟨2, "Honda", "Civic", 2022, "Silver", 24000⟩], 3⟩
    ⟨by decide, by decide⟩ 1 ⟨1, "Toyota", "Camry", 2023, "Blue", 28500⟩
    (by decide)

/-- Claim C9: the composite check equals the first failure of the required-
text checks for make, model, color, then the year check, then the price
check, run in exactly that order with a short-circuit on the first
violation. -/
theorem c9_validate_all_fields_short_circuits_in_order (mk md : String)
    (y : Int) (cl : String) (p : Rat) :
    validate_car_data mk md y cl p =
      firstFailure [required_text_check "Make is required" mk,
        required_text_check "Model is required" md,
        required_text_check "Color is required" cl,
        validate_year y, validate_price p] := by
  unfold validate_car_data required_text_check
  by_cases h1 : pyBlank mk
  · simp [h1, firstFailure]
  · by_cases h2 : pyBlank md
    · simp [h1, h2, firstFailure]
    · by_cases h3 : pyBlank cl
      · simp [h1, h2, h3, firstFailure]
      · cases hy : validate_year y with
        | error e => simp [h1, h2, h3, hy, firstFailure]
        | ok u =>
          cases u
          cases hp : validate_price p with
          | error e => simp [h1, h2, h3, hy, hp, firstFailure]
          | ok u => cases u; simp [h1, h2, h3, hy, hp, firstFailure]

/-- Claim C2 fails as stated: after create then an update that writes an
all-whitespace make (update does not re-validate text fields), the
persisted row violates the make constraint. -/
theorem c2_counterexample_constraints_not_invariant :
    ¬ ∀ c ∈ (runOps [Op.create "Toyota" "Camry" 2023 "Blue" 28500,
        Op.update 1 (some " ") none none none none]).rows,
      Car.constraintsOK c := by
  decide

/-- Claim C2 (amended): after any sequence of create, update and delete
operations starting from the empty store, every persisted record satisfies
the year range [1900, 2030] and the price range [0, 10000000]; the make,
model and color constraints are not part of the invariant because update
writes those fields without re-validation. -/
theorem c2_amended_persisted_rows_satisfy_ranges (ops : List Op) :
    ∀ c ∈ (runOps ops).rows, Car.rangesOK c := by
  unfold runOps
  refine rangesOK_foldl ?_ ops
  intro r hr
  simp [Store.empty] at hr

/-- Witness for the amended C2 after one create on the empty store. -/
theorem c2_amended_witness :
    Car.rangesOK ⟨1, "Toyota", "Camry", 2023, "Blue", 28500⟩ :=
  c2_amended_persisted_rows_satisfy_ranges
    [Op.create "Toyota" "Camry" 2023 "Blue" 28500]
    ⟨1, "Toyota", "Camry", 2023, "Blue", 28500⟩ (by decide)

/-- Claim C10: exists returns true exactly when find_by_id succeeds, even
though exists filters the table and takes the first hit while find_by_id
gets by primary key; both are pure reads of the store. -/
theorem c10_exists_agrees_with_find_by_id (s : Store) (i : Nat) :
    existsRow s i = true ↔ ∃ c, find_by_id s i = .ok c := by
  rw [existsRow_eq_isSome_getById]
  cases hg : s.getById i with
  | none => simp [find_by_id_notFound hg]
  | some c =>
    simp only [Option.isSome_some, true_iff]
    refine ⟨c, ?_⟩
    unfold find_by_id
    rw [hg]
